import Mathlib

/-!
Shallow embedding of the wallet-ledger and rental-plan subsystem of the
`tiktok-review-saas` backend (`backend/server.js` together with the schema in
`database/init.sql`).

Tables are lists of row structures; `NUMERIC` columns are rationals;
timestamps are a logical clock `now` on the database state (each statement
that samples `NOW()` reads the clock, and each committed write that produced a
fresh timestamp advances it, keeping timestamps strictly monotone);
`SERIAL` ids come from a single counter `nextId`.

JavaScript numbers that reach a validation only through `Number(...)` are
modelled by `JSNum` (NaN, ±Infinity, or a finite rational), so that
`Number.isFinite` and the comparisons of the deposit validation are exact.

Failure of a storage statement is modelled by a `fail` parameter naming the
statement that fails: statements executed before it keep their effects unless
an enclosing transaction rolls them back, mirroring which handlers wrap their
writes in `BEGIN`/`COMMIT`/`ROLLBACK` (`/wallet/deposit` does; `/rent/subscribe`
does not).
-/

/-- JavaScript number as produced by `Number(req.body.amount)`. -/
inductive JSNum where
  | nan : JSNum
  | inf : Bool → JSNum   -- `inf true` is +Infinity, `inf false` is -Infinity
  | fin : ℚ → JSNum
deriving DecidableEq, Repr

/-- JavaScript `Number.isFinite`. -/
def JSNum.isFinite : JSNum → Bool
  | .fin _ => true
  | _ => false

/-- JavaScript `<=` on numbers: any comparison with NaN is false. -/
def JSNum.jsLe : JSNum → JSNum → Bool
  | .nan, _ => false
  | _, .nan => false
  | .inf b, .inf c => !b || c
  | .inf b, .fin _ => !b
  | .fin _, .inf c => c
  | .fin q, .fin r => q ≤ r

/-- JavaScript `>` on numbers: any comparison with NaN is false. -/
def JSNum.jsGt (a b : JSNum) : Bool :=
  match a, b with
  | .nan, _ => false
  | _, .nan => false
  | _, _ => !(a.jsLe b)

/-- Row of `users` (only the columns the wallet/rental core touches). -/
structure UserRow where
  id : Nat
  plan : String
deriving DecidableEq, Repr

/-- Row of `rental_plans`. -/
structure PlanRow where
  id : Nat
  code : String
  name : String
  monthly_price : ℚ
  max_video_jobs : Nat
  active : Bool
deriving DecidableEq, Repr

/-- Rental status: the code only ever writes `'active'` and `'expired'`. -/
inductive RStatus where
  | active : RStatus
  | expired : RStatus
deriving DecidableEq, Repr

/-- Row of `user_rentals`. -/
structure RentalRow where
  id : Nat
  user_id : Nat
  plan_id : Nat
  months : Nat
  total_price : ℚ
  status : RStatus
  starts_at : Nat
  ends_at : Nat
  created_at : Nat
deriving DecidableEq, Repr

/-- Row of `wallet_accounts`. -/
structure WalletRow where
  id : Nat
  user_id : Nat
  balance : ℚ
  currency : String
  updated_at : Nat
  created_at : Nat
deriving DecidableEq, Repr

/-- Row of `wallet_transactions` (metadata payload omitted: the handler always
stores the constant `{"source":"user_deposit"}`). -/
structure TxRow where
  id : Nat
  wallet_id : Nat
  user_id : Nat
  tx_type : String
  amount : ℚ
  status : String
  note : String
  created_at : Nat
deriving DecidableEq, Repr

/-- Row of `video_jobs` (only the columns the quota check can see). -/
structure VideoJobRow where
  id : Nat
  user_id : Nat
  created_at : Nat
deriving DecidableEq, Repr

/-- The database state. -/
structure DB where
  users : List UserRow
  plans : List PlanRow
  rentals : List RentalRow
  wallets : List WalletRow
  txs : List TxRow
  video_jobs : List VideoJobRow
  nextId : Nat
  now : Nat
deriving DecidableEq, Repr

/-- The three plans seeded by `database/init.sql`. -/
def seededPlans : List PlanRow :=
  [ { id := 1, code := "starter", name := "Starter", monthly_price := 299,
      max_video_jobs := 30, active := true },
    { id := 2, code := "growth", name := "Growth", monthly_price := 999,
      max_video_jobs := 150, active := true },
    { id := 3, code := "pro", name := "Pro", monthly_price := 2499,
      max_video_jobs := 1000, active := true } ]

/-- The helper `safeText`: `String(value ?? "").trim().slice(0, max)`. -/
def safeText (value : String) (max : Nat) : String :=
  ⟨(value.trim.data).take max⟩

/-- The query `SELECT ... FROM wallet_accounts WHERE user_id=$1` (first row). -/
def findWallet (db : DB) (uid : Nat) : Option WalletRow :=
  db.wallets.find? (fun w => w.user_id == uid)

/-- The statement `INSERT INTO wallet_accounts (user_id, balance, currency) VALUES ($1, 0, 'THB')
ON CONFLICT (user_id) DO NOTHING`: the losing insert of a race is absorbed,
never surfaced as an error. -/
def insertIfAbsent (db : DB) (uid : Nat) : DB :=
  if db.wallets.any (fun w => w.user_id == uid) then db
  else
    { db with
      wallets := db.wallets ++
        [{ id := db.nextId, user_id := uid, balance := 0, currency := "THB",
           updated_at := db.now, created_at := db.now }],
      nextId := db.nextId + 1,
      now := db.now + 1 }

/-- The function `ensureWallet(userId)`: insert-if-absent, then select.  The returned
`Option` mirrors `wallet.rows[0]` (which would be `undefined` on an empty
result set). -/
def ensureWallet (db : DB) (uid : Nat) : DB × Option WalletRow :=
  let db1 := insertIfAbsent db uid
  (db1, findWallet db1 uid)

/-! ## Deposit (`POST /wallet/deposit`) -/

/-- Outcome of the deposit handler. -/
inductive DepositOutcome where
  | validationError : String → DepositOutcome  -- 400, returned before any write
  | storageError : DepositOutcome              -- 500 after ROLLBACK
  | ok : WalletRow → TxRow → DepositOutcome    -- 200 after COMMIT
deriving DecidableEq, Repr

/-- Which statement inside the deposit transaction fails. -/
inductive DepFail where
  | atUpdate : DepFail   -- the `UPDATE wallet_accounts` statement fails
  | atInsert : DepFail   -- the `INSERT INTO wallet_transactions` statement fails
deriving DecidableEq, Repr

/-- The statement `UPDATE wallet_accounts SET balance = balance + $1, updated_at = NOW()
WHERE id=$2` applied to the table. -/
def updateBalance (wallets : List WalletRow) (amount : ℚ) (wid : Nat) (t : Nat) :
    List WalletRow :=
  wallets.map (fun w =>
    if w.id == wid then { w with balance := w.balance + amount, updated_at := t } else w)

/-- The deposit handler.  `fail = some f` makes statement `f` of the
transaction fail, after which the `ROLLBACK` discards the transaction's
writes (the `ensureWallet` call ran on the pool, outside the transaction,
so its insert-if-absent survives). -/
def depositRun (db : DB) (uid : Nat) (amountRaw : JSNum) (noteRaw : String)
    (fail : Option DepFail) : DB × DepositOutcome :=
  let note := safeText noteRaw 255
  if !amountRaw.isFinite || amountRaw.jsLe (.fin 0) then
    (db, .validationError "amount must be > 0")
  else if amountRaw.jsGt (.fin 1000000) then
    (db, .validationError "amount too large")
  else
    match amountRaw with
    | .nan => (db, .storageError)        -- unreachable: excluded by isFinite
    | .inf _ => (db, .storageError)      -- unreachable: excluded by isFinite
    | .fin amount =>
      let (db1, w?) := ensureWallet db uid
      match w? with
      | none => (db1, .storageError)     -- unreachable: `wallet.rows[0]` always exists
      | some w =>
        match fail with
        | some _ => (db1, .storageError) -- ROLLBACK: the transaction leaves no write
        | none =>
          let wallets' := updateBalance db1.wallets amount w.id db1.now
          let w' := { w with balance := w.balance + amount, updated_at := db1.now }
          let tx : TxRow :=
            { id := db1.nextId, wallet_id := w.id, user_id := uid,
              tx_type := "deposit", amount := amount, status := "completed",
              note := note, created_at := db1.now }
          ({ db1 with
              wallets := wallets',
              txs := db1.txs ++ [tx],
              nextId := db1.nextId + 1,
              now := db1.now + 1 },
           .ok w' tx)

/-- The query `SELECT * FROM wallet_transactions WHERE wallet_id=$1` as a list. -/
def txsFor (db : DB) (wid : Nat) : List TxRow :=
  db.txs.filter (fun t => t.wallet_id == wid)

/-- Balance of the user's wallet row, when one exists. -/
def balanceOf (db : DB) (uid : Nat) : Option ℚ :=
  (findWallet db uid).map (fun w => w.balance)

/-! ## Subscribe (`POST /rent/subscribe`)

The handler issues its three writes as three separate `pool.query` calls with
no `BEGIN`/`COMMIT` around them, so a statement that fails leaves the effects
of the earlier statements in place. -/

/-- The three write statements of the subscribe handler, in program order. -/
inductive SubStep where
  | expireOld : SubStep     -- `UPDATE user_rentals SET status='expired' WHERE user_id=$1 AND status='active'`
  | insertRental : SubStep  -- `INSERT INTO user_rentals ... RETURNING *`
  | updateUserPlan : SubStep  -- `UPDATE users SET plan=$1 WHERE id=$2`
deriving DecidableEq, Repr

/-- Outcome of the subscribe handler. -/
inductive SubOutcome where
  | validationError : String → SubOutcome  -- 400
  | notFound : SubOutcome                  -- 404 "Plan not found"
  | storageError : SubOutcome              -- 500: a statement failed; no rollback happens
  | ok : RentalRow → PlanRow → SubOutcome  -- 200
deriving DecidableEq, Repr

/-- The query `SELECT * FROM rental_plans WHERE code=$1 AND active=TRUE` (first row). -/
def findActivePlan (db : DB) (code : String) : Option PlanRow :=
  db.plans.find? (fun p => p.code == code && p.active)

/-- Statement (a): expire any existing active rental of the user. -/
def expireActive (db : DB) (uid : Nat) : DB :=
  { db with
      rentals := db.rentals.map (fun r =>
        if r.user_id == uid && r.status == RStatus.active then
          { r with status := RStatus.expired }
        else r) }

/-- The rental row inserted by statement (b): `status='active'`,
`starts_at = NOW()`, `ends_at = NOW() + months * 1 month` (a month is one
clock unit here). -/
def newRentalRow (db : DB) (uid : Nat) (planId months : Nat) (totalPrice : ℚ) :
    RentalRow :=
  { id := db.nextId, user_id := uid, plan_id := planId, months := months,
    total_price := totalPrice, status := RStatus.active,
    starts_at := db.now, ends_at := db.now + months, created_at := db.now }

/-- Statement (b): insert the new rental row. -/
def insertRentalRow (db : DB) (uid : Nat) (planId months : Nat) (totalPrice : ℚ) :
    DB :=
  { db with
      rentals := db.rentals ++ [newRentalRow db uid planId months totalPrice],
      nextId := db.nextId + 1,
      now := db.now + 1 }

/-- Statement (c): update the user's denormalized plan code. -/
def setUserPlan (db : DB) (uid : Nat) (code : String) : DB :=
  { db with
      users := db.users.map (fun u => if u.id == uid then { u with plan := code } else u) }

/-- The subscribe handler.  `months` is already past `parsePositiveInt`
(`Number.isInteger(parsed) && parsed > 0`), so it arrives as a positive
integer or the handler was left with a 400 beforehand; we take the raw value
as an `Int` and replay the check.  `fail = some s` makes statement `s` fail:
the statements before it have already been applied to the pool and stay. -/
def subscribeRun (db : DB) (uid : Nat) (planCodeRaw : String) (monthsRaw : Int)
    (fail : Option SubStep) : DB × SubOutcome :=
  let planCode := safeText planCodeRaw 50
  if ¬ (0 < monthsRaw) then
    (db, .validationError "months must be a positive integer")
  else if planCode == "" then
    (db, .validationError "planCode is required")
  else if monthsRaw > 24 then
    (db, .validationError "months must be <= 24")
  else
    let months := monthsRaw.toNat
    match findActivePlan db planCode with
    | none => (db, .notFound)
    | some selected =>
      let totalPrice := selected.monthly_price * (months : ℚ)
      match fail with
      | some .expireOld => (db, .storageError)
      | some .insertRental => (expireActive db uid, .storageError)
      | some .updateUserPlan =>
        (insertRentalRow (expireActive db uid) uid selected.id months totalPrice,
         .storageError)
      | none =>
        let db1 := expireActive db uid
        let rental := newRentalRow db1 uid selected.id months totalPrice
        let db2 := insertRentalRow db1 uid selected.id months totalPrice
        let db3 := setUserPlan db2 uid selected.code
        (db3, .ok rental selected)

/-- The user's active rentals (`WHERE user_id=$1 AND status='active'`). -/
def activeRentalsOf (db : DB) (uid : Nat) : List RentalRow :=
  db.rentals.filter (fun r => r.user_id == uid && r.status == RStatus.active)

/-- Denormalized plan code of the user row. -/
def userPlan (db : DB) (uid : Nat) : Option String :=
  (db.users.find? (fun u => u.id == uid)).map (fun u => u.plan)

/-! ## Quota check (`POST /video/generate-from-feed`, lines 432–448) -/

/-- The join row of
`SELECT ur.*, rp.max_video_jobs FROM user_rentals ur JOIN rental_plans rp
ON rp.id = ur.plan_id WHERE ur.user_id=$1 AND ur.status='active'
ORDER BY ur.created_at DESC LIMIT 1`: the active rental of the user with the
greatest `created_at` whose plan row exists. -/
def getActiveRentalJoined (db : DB) (uid : Nat) : Option (RentalRow × PlanRow) :=
  ((activeRentalsOf db uid).filterMap
      (fun r => (db.plans.find? (fun p => p.id == r.plan_id)).map (fun p => (r, p)))).foldl
    (fun acc x =>
      match acc with
      | none => some x
      | some y => if y.1.created_at < x.1.created_at then some x else some y)
    none

/-- The query `SELECT COUNT(*) FROM video_jobs WHERE user_id=$1`: a lifetime count,
with no filter on when or under which plan the job was created. -/
def videoJobCount (db : DB) (uid : Nat) : Nat :=
  (db.video_jobs.filter (fun j => j.user_id == uid)).length

/-- The quota gate of the video-generation handler: deny (403 "Plan limit
reached") exactly when an active rental row joins and
`count >= max_video_jobs`; with no active rental the block is skipped. -/
def quotaDenied (db : DB) (uid : Nat) : Bool :=
  match getActiveRentalJoined db uid with
  | some rp => decide (rp.2.max_video_jobs ≤ videoJobCount db uid)
  | none => false

/-! ## Transaction listing (`GET /wallet/transactions`) -/

/-- The comparison of `ORDER BY created_at DESC`. -/
def byNewest (a b : TxRow) : Prop := b.created_at ≤ a.created_at

instance : DecidableRel byNewest := fun a b => Nat.decLe b.created_at a.created_at

instance : IsTotal TxRow byNewest :=
  ⟨fun a b => (Nat.le_total b.created_at a.created_at).imp id id⟩

instance : IsTrans TxRow byNewest :=
  ⟨fun _ _ _ h1 h2 => Nat.le_trans h2 h1⟩

/-- The ordering `ORDER BY created_at DESC` as a sort. -/
def sortDesc (l : List TxRow) : List TxRow := l.insertionSort byNewest

/-- The transaction-listing handler: `ensureWallet`, then
`SELECT * FROM wallet_transactions WHERE wallet_id=$1
ORDER BY created_at DESC LIMIT 100`. -/
def listTransactions (db : DB) (uid : Nat) : DB × List TxRow :=
  match ensureWallet db uid with
  | (db1, some w) => (db1, (sortDesc (txsFor db1 w.id)).take 100)
  | (db1, none) => (db1, [])

/-- Sequential application of deposits (each one a committed
`POST /wallet/deposit` with the default note). -/
def depositSeq (db : DB) (uid : Nat) : List ℚ → DB
  | [] => db
  | q :: qs => depositSeq (depositRun db uid (.fin q) "manual-topup" none).1 uid qs

/-! ## Concurrent first-access race on `ensureWallet`

Each concurrent caller executes two statements against the shared pool: the
`INSERT ... ON CONFLICT (user_id) DO NOTHING` and then the `SELECT`.  A
schedule is an arbitrary interleaving of these statements; validity only
requires that each caller's select comes after its own insert. -/

/-- One statement of one caller (`i` identifies the caller). -/
inductive WEv where
  | ins : Nat → WEv   -- caller i runs the insert-if-absent statement
  | sel : Nat → WEv   -- caller i runs the select and observes the row
deriving DecidableEq, Repr

/-- Run a schedule; the log pairs each select with the row its caller saw. -/
def runWalletRace (uid : Nat) : DB → List WEv → DB × List (Nat × Option WalletRow)
  | db, [] => (db, [])
  | db, .ins _ :: es => runWalletRace uid (insertIfAbsent db uid) es
  | db, .sel i :: es =>
    let r := runWalletRace uid db es
    (r.1, (i, findWallet db uid) :: r.2)

/-- Validity of a schedule: each caller's select is preceded by that caller's
insert (each `ensureWallet` call runs its two statements in order).  `seen`
accumulates the callers whose insert statement has already run. -/
def selsCovered (seen : List Nat) : List WEv → Bool
  | [] => true
  | .ins i :: es => selsCovered (i :: seen) es
  | .sel i :: es => seen.contains i && selsCovered seen es

/-- The wallet row `insertIfAbsent` appends when the user has none. -/
def newWalletRow (db : DB) (uid : Nat) : WalletRow :=
  { id := db.nextId, user_id := uid, balance := 0, currency := "THB",
    updated_at := db.now, created_at := db.now }

/-- The transaction row a committed deposit inserts. -/
def depositTx (db : DB) (uid wid : Nat) (q : ℚ) (note : String) : TxRow :=
  { id := db.nextId, wallet_id := wid, user_id := uid, tx_type := "deposit",
    amount := q, status := "completed", note := safeText note 255,
    created_at := db.now }

/-- The spec's characterization of a valid deposit amount: a finite number,
strictly greater than 0, and at most 1,000,000. -/
def specValidAmount (a : JSNum) : Prop :=
  ∃ q : ℚ, a = .fin q ∧ 0 < q ∧ q ≤ 1000000

/-! ## Concrete example states (used by witnesses and counterexamples) -/

/-- A database with one user on the starter plan holding one active rental. -/
def subDB : DB :=
  { users := [{ id := 1, plan := "starter" }],
    plans := seededPlans,
    rentals := [{ id := 10, user_id := 1, plan_id := 1, months := 1,
                  total_price := 299, status := RStatus.active,
                  starts_at := 3, ends_at := 4, created_at := 3 }],
    wallets := [], txs := [], video_jobs := [], nextId := 11, now := 5 }

/-- A video job of user `uid`, created at time `k`. -/
def mkJob (uid k : Nat) : VideoJobRow :=
  { id := 100 + k, user_id := uid, created_at := k }

/-- A database with one user holding `njobs` video jobs and no rental. -/
def jobsDB (njobs : Nat) : DB :=
  { users := [{ id := 1, plan := "free" }],
    plans := seededPlans,
    rentals := [], wallets := [], txs := [],
    video_jobs := (List.range njobs).map (mkJob 1),
    nextId := 50, now := 40 }

/-- The state `jobsDB njobs` right after the user subscribed to the starter plan. -/
def quotaDB (njobs : Nat) : DB :=
  (subscribeRun (jobsDB njobs) 1 "starter" 1 none).1

/-- A database with one user and an empty wallet (balance 17.5 after seeding),
used by deposit witnesses. -/
def walletDB : DB :=
  { users := [{ id := 1, plan := "free" }],
    plans := seededPlans,
    rentals := [],
    wallets := [{ id := 7, user_id := 1, balance := 35/2, currency := "THB",
                  updated_at := 2, created_at := 2 }],
    txs := [], video_jobs := [], nextId := 20, now := 9 }

/-- A database with no wallet rows, used by the race witnesses. -/
def emptyWalletDB : DB :=
  { users := [{ id := 1, plan := "free" }],
    plans := seededPlans,
    rentals := [], wallets := [], txs := [], video_jobs := [],
    nextId := 30, now := 12 }

/-! ## Helper lemmas -/

theorem insertIfAbsent_of_exists {db : DB} {uid : Nat}
    (h : db.wallets.any (fun w => w.user_id == uid) = true) :
    insertIfAbsent db uid = db := by
  simp [insertIfAbsent, h]

theorem findWallet_isSome_insertIfAbsent (db : DB) (uid : Nat) :
    (findWallet (insertIfAbsent db uid) uid).isSome := by
  unfold insertIfAbsent findWallet
  by_cases h : db.wallets.any (fun w => w.user_id == uid) = true
  · simp only [h, if_true]
    rw [List.find?_isSome]
    obtain ⟨w, hw, hwp⟩ := List.any_eq_true.mp h
    exact ⟨w, hw, hwp⟩
  · simp only [if_neg h]
    have hn : db.wallets.find? (fun w => w.user_id == uid) = none := by
      rw [List.find?_eq_none]
      intro w hw
      by_contra hc
      exact h (List.any_eq_true.mpr ⟨w, hw, by simpa using hc⟩)
    simp [List.find?_append, hn]

theorem insertIfAbsent_of_findWallet_some {db : DB} {uid : Nat} {w : WalletRow}
    (h : findWallet db uid = some w) : insertIfAbsent db uid = db := by
  apply insertIfAbsent_of_exists
  have h' : db.wallets.find? (fun x => x.user_id == uid) = some w := h
  have hp := List.find?_some h'
  exact List.any_eq_true.mpr ⟨w, List.mem_of_find?_eq_some h', hp⟩

theorem ensureWallet_of_exists {db : DB} {uid : Nat} {w : WalletRow}
    (h : findWallet db uid = some w) : ensureWallet db uid = (db, some w) := by
  simp [ensureWallet, insertIfAbsent_of_findWallet_some h, h]

theorem insertIfAbsent_txs (db : DB) (uid : Nat) :
    (insertIfAbsent db uid).txs = db.txs := by
  unfold insertIfAbsent
  by_cases h : db.wallets.any (fun w => w.user_id == uid) = true <;> simp [h]

theorem insertIfAbsent_wallets_mem (db : DB) (uid : Nat) :
    ∀ x ∈ db.wallets, x ∈ (insertIfAbsent db uid).wallets := by
  intro x hx
  unfold insertIfAbsent
  by_cases h : db.wallets.any (fun w => w.user_id == uid) = true <;>
    simp [h, List.mem_append_left, hx]

theorem find?_updateBalance (wallets : List WalletRow) (q : ℚ) (wid t uid : Nat) :
    (updateBalance wallets q wid t).find? (fun w => w.user_id == uid) =
      (wallets.find? (fun w => w.user_id == uid)).map
        (fun w => if w.id == wid then
          { w with balance := w.balance + q, updated_at := t } else w) := by
  unfold updateBalance
  rw [List.find?_map]
  have hpf : ((fun w : WalletRow => w.user_id == uid) ∘ (fun w =>
      if w.id == wid then { w with balance := w.balance + q, updated_at := t } else w))
      = (fun w : WalletRow => w.user_id == uid) := by
    funext x
    simp only [Function.comp]
    split <;> rfl
  rw [hpf]

theorem depositRun_ok {db : DB} {uid : Nat} {w : WalletRow} {q : ℚ}
    (hw : findWallet db uid = some w) (h0 : 0 < q) (h1 : q ≤ 1000000)
    (note : String) :
    depositRun db uid (.fin q) note none =
      ({ db with
          wallets := updateBalance db.wallets q w.id db.now,
          txs := db.txs ++ [depositTx db uid w.id q note],
          nextId := db.nextId + 1,
          now := db.now + 1 },
       .ok { w with balance := w.balance + q, updated_at := db.now }
         (depositTx db uid w.id q note)) := by
  have hv1 : ((JSNum.fin q).jsLe (.fin 0)) = false := by
    simp [JSNum.jsLe, not_le.mpr h0]
  have hv2 : ((JSNum.fin q).jsGt (.fin 1000000)) = false := by
    simp [JSNum.jsGt, JSNum.jsLe, h1]
  have he : ensureWallet db uid = (db, some w) := ensureWallet_of_exists hw
  unfold depositRun
  simp [JSNum.isFinite, hv1, hv2, he, depositTx]

theorem depositSeq_cons (db : DB) (uid : Nat) (q : ℚ) (qs : List ℚ) :
    depositSeq db uid (q :: qs) =
      depositSeq (depositRun db uid (.fin q) "manual-topup" none).1 uid qs := rfl

theorem depositSeq_spec (uid : Nat) (l : List ℚ) :
    ∀ (db : DB) (w : WalletRow), findWallet db uid = some w →
    (∀ q ∈ l, 0 < q ∧ q ≤ 1000000) →
    ∃ (w' : WalletRow) (ts : List TxRow),
      findWallet (depositSeq db uid l) uid = some w' ∧
      w'.id = w.id ∧
      w'.balance = w.balance + l.sum ∧
      txsFor (depositSeq db uid l) w.id = txsFor db w.id ++ ts ∧
      ts.length = l.length ∧
      ts.Pairwise (fun a b => a.created_at < b.created_at) ∧
      (∀ t ∈ ts, db.now ≤ t.created_at ∧ t.created_at < (depositSeq db uid l).now) ∧
      db.now ≤ (depositSeq db uid l).now := by
  induction l with
  | nil =>
    intro db w hw _
    refine ⟨w, [], hw, rfl, by simp, by simp [depositSeq, txsFor], rfl, .nil, ?_, le_refl _⟩
    intro t ht
    exact absurd ht (List.not_mem_nil t)
  | cons q qs ih =>
    intro db w hw hv
    obtain ⟨h0, h1⟩ := hv q (List.mem_cons_self ..)
    have hrun := depositRun_ok hw h0 h1 "manual-topup"
    have hdb1 : (depositRun db uid (.fin q) "manual-topup" none).1 =
        { db with
            wallets := updateBalance db.wallets q w.id db.now,
            txs := db.txs ++ [depositTx db uid w.id q "manual-topup"],
            nextId := db.nextId + 1,
            now := db.now + 1 } := by rw [hrun]
    have hw1 : findWallet (depositRun db uid (.fin q) "manual-topup" none).1 uid =
        some { w with balance := w.balance + q, updated_at := db.now } := by
      rw [hdb1]
      show (updateBalance db.wallets q w.id db.now).find? (fun x => x.user_id == uid)
        = _
      rw [find?_updateBalance]
      rw [show db.wallets.find? (fun x => x.user_id == uid) = some w from hw]
      simp
    have htx1 : txsFor (depositRun db uid (.fin q) "manual-topup" none).1 w.id =
        txsFor db w.id ++ [depositTx db uid w.id q "manual-topup"] := by
      rw [hdb1]
      show ((db.txs ++ [depositTx db uid w.id q "manual-topup"]).filter
        (fun t => t.wallet_id == w.id)) = _
      rw [List.filter_append]
      simp [txsFor, depositTx]
    have hnow1 : (depositRun db uid (.fin q) "manual-topup" none).1.now = db.now + 1 := by
      rw [hdb1]
    obtain ⟨w', ts', hfw', hid', hbal', htxs', hlen', hpw', hbnd', hmono'⟩ :=
      ih (depositRun db uid (.fin q) "manual-topup" none).1
        { w with balance := w.balance + q, updated_at := db.now }
        hw1 (fun r hr => hv r (List.mem_cons_of_mem _ hr))
    have hid2 : w'.id = w.id := hid'
    have hbal2 : w'.balance = (w.balance + q) + qs.sum := hbal'
    have htxs2 : txsFor (depositSeq (depositRun db uid (.fin q) "manual-topup" none).1 uid qs) w.id
        = txsFor (depositRun db uid (.fin q) "manual-topup" none).1 w.id ++ ts' := htxs'
    refine ⟨w', depositTx db uid w.id q "manual-topup" :: ts',
      by rw [depositSeq_cons]; exact hfw', hid2, ?_, ?_, ?_, ?_, ?_, ?_⟩
    · rw [hbal2, List.sum_cons, add_assoc]
    · rw [depositSeq_cons, htxs2, htx1, List.append_assoc]
      rfl
    · simp [hlen']
    · refine List.pairwise_cons.mpr ⟨?_, hpw'⟩
      intro t ht
      have := (hbnd' t ht).1
      rw [hnow1] at this
      exact Nat.lt_of_lt_of_le (Nat.lt_succ_self _) this
    · intro t ht
      rcases List.mem_cons.mp ht with h | h
      · subst h
        refine ⟨le_refl _, ?_⟩
        show db.now < (depositSeq db uid (q :: qs)).now
        rw [depositSeq_cons]
        have := hmono'
        rw [hnow1] at this
        exact Nat.lt_of_lt_of_le (Nat.lt_succ_self _) this
      · obtain ⟨hlo, hhi⟩ := hbnd' t h
        rw [hnow1] at hlo
        refine ⟨Nat.le_trans (Nat.le_succ _) hlo, ?_⟩
        rw [depositSeq_cons]
        exact hhi
    · rw [depositSeq_cons]
      have := hmono'
      rw [hnow1] at this
      exact Nat.le_trans (Nat.le_succ _) this

theorem safeText_pro : safeText "pro" 50 = "pro" := by with_unfolding_all rfl

theorem subscribeRun_ok {db : DB} {uid : Nat} {p : PlanRow} {code : String} {m : Int}
    (hm0 : 0 < m) (hm24 : m ≤ 24)
    (hcode : (safeText code 50 == "") = false)
    (hp : findActivePlan db (safeText code 50) = some p) :
    subscribeRun db uid code m none =
      (setUserPlan
        (insertRentalRow (expireActive db uid) uid p.id m.toNat
          (p.monthly_price * (m.toNat : ℚ)))
        uid p.code,
       .ok (newRentalRow (expireActive db uid) uid p.id m.toNat
          (p.monthly_price * (m.toNat : ℚ))) p) := by
  unfold subscribeRun
  simp [not_lt.mpr hm24, hm0, hcode, hp, insertRentalRow]

theorem expireActive_no_active (db : DB) (uid : Nat) :
    activeRentalsOf (expireActive db uid) uid = [] := by
  unfold activeRentalsOf expireActive
  rw [List.filter_eq_nil_iff]
  intro r hr
  obtain ⟨r0, _, rfl⟩ := List.mem_map.mp hr
  by_cases h : (r0.user_id == uid && r0.status == RStatus.active) = true
  · rw [if_pos h]
    simp
  · rw [if_neg h]
    exact h

theorem expireActive_mem_expired (db : DB) (uid : Nat) :
    ∀ r ∈ db.rentals, r.user_id = uid → r.status = RStatus.active →
      { r with status := RStatus.expired } ∈ (expireActive db uid).rentals := by
  intro r hr hru hrs
  unfold expireActive
  simp only [List.mem_map]
  refine ⟨r, hr, ?_⟩
  have : (r.user_id == uid && r.status == RStatus.active) = true := by
    simp [hru, hrs]
  rw [this]
  simp

theorem userPlan_setUserPlan (db : DB) (uid : Nat) (code : String)
    (hu : (db.users.find? (fun u => u.id == uid)).isSome = true) :
    userPlan (setUserPlan db uid code) uid = some code := by
  obtain ⟨u, hu⟩ := Option.isSome_iff_exists.mp hu
  unfold userPlan setUserPlan
  show ((db.users.map fun x => if x.id == uid then { x with plan := code } else x).find?
      (fun x => x.id == uid)).map (fun x => x.plan) = some code
  rw [List.find?_map]
  have hpf : ((fun x : UserRow => x.id == uid) ∘ (fun x =>
      if x.id == uid then { x with plan := code } else x))
      = (fun x : UserRow => x.id == uid) := by
    funext x
    simp only [Function.comp]
    split <;> rfl
  rw [hpf, hu]
  have hx := List.find?_some hu
  show some ((if u.id == uid then { u with plan := code } else u).plan) = some code
  rw [if_pos hx]

theorem expireActive_other (db : DB) (uid v : Nat) (hv : v ≠ uid) :
    activeRentalsOf (expireActive db uid) v = activeRentalsOf db v := by
  unfold activeRentalsOf expireActive
  show (db.rentals.map _).filter _ = _
  rw [List.filter_map]
  have hpf : ((fun r : RentalRow => r.user_id == v && r.status == RStatus.active) ∘
      (fun r => if r.user_id == uid && r.status == RStatus.active then
        { r with status := RStatus.expired } else r))
      = (fun r : RentalRow => r.user_id == v && r.status == RStatus.active) := by
    funext r
    simp only [Function.comp]
    by_cases h : (r.user_id == uid && r.status == RStatus.active) = true
    · rw [if_pos h]
      have hru : r.user_id = uid := by
        have := (Bool.and_eq_true ..|>.mp h).1
        simpa using this
      have : (r.user_id == v) = false := by
        simp [hru, (Ne.symm hv)]
      simp [this]
    · rw [if_neg h]
  rw [hpf]
  have hid : ∀ r ∈ db.rentals.filter
      (fun r => r.user_id == v && r.status == RStatus.active),
      (fun r : RentalRow => if r.user_id == uid && r.status == RStatus.active then
        { r with status := RStatus.expired } else r) r = id r := by
    intro r hr
    have hrp : (r.user_id == v && r.status == RStatus.active) = true :=
      (List.mem_filter.mp hr).2
    have hrv : (r.user_id == v) = true := (Bool.and_eq_true ..|>.mp hrp).1
    have hru : (r.user_id == uid && r.status == RStatus.active) = false := by
      have hx : r.user_id = v := by simpa using hrv
      simp [hx, hv]
    show (if r.user_id == uid && r.status == RStatus.active then
      { r with status := RStatus.expired } else r) = r
    rw [if_neg (by simp [hru])]
  rw [List.map_congr_left hid, List.map_id]

theorem runWalletRace_of_exists (uid : Nat) (es : List WEv) :
    ∀ (db : DB) (w : WalletRow), findWallet db uid = some w →
      (runWalletRace uid db es).1 = db ∧
      ∀ x ∈ (runWalletRace uid db es).2, x.2 = some w := by
  induction es with
  | nil =>
    intro db w _
    exact ⟨rfl, by intro x hx; exact absurd hx (List.not_mem_nil x)⟩
  | cons e es ih =>
    intro db w hw
    cases e with
    | ins i =>
      have hno : insertIfAbsent db uid = db := insertIfAbsent_of_findWallet_some hw
      show (runWalletRace uid (insertIfAbsent db uid) es).1 = db ∧
        ∀ x ∈ (runWalletRace uid (insertIfAbsent db uid) es).2, x.2 = some w
      rw [hno]
      exact ih db w hw
    | sel i =>
      obtain ⟨h1, h2⟩ := ih db w hw
      refine ⟨h1, ?_⟩
      intro x hx
      rcases List.mem_cons.mp hx with h | h
      · rw [h]
        exact hw
      · exact h2 x h

theorem insertIfAbsent_of_none {db : DB} {uid : Nat}
    (h0 : findWallet db uid = none) :
    insertIfAbsent db uid =
      { db with
          wallets := db.wallets ++ [newWalletRow db uid],
          nextId := db.nextId + 1,
          now := db.now + 1 } := by
  have hall : ∀ x ∈ db.wallets, ¬ ((fun w => w.user_id == uid) x = true) :=
    List.find?_eq_none.mp h0
  have hany : (db.wallets.any (fun w => w.user_id == uid)) = false := by
    rw [Bool.eq_false_iff]
    intro hc
    obtain ⟨x, hx, hpx⟩ := List.any_eq_true.mp hc
    exact hall x hx hpx
  unfold insertIfAbsent
  rw [if_neg (by simp [hany]), ]
  rfl

theorem findWallet_insert_of_none {db : DB} {uid : Nat}
    (h0 : findWallet db uid = none) :
    findWallet (insertIfAbsent db uid) uid = some (newWalletRow db uid) := by
  rw [insertIfAbsent_of_none h0]
  show (db.wallets ++ [newWalletRow db uid]).find? (fun w => w.user_id == uid)
    = some (newWalletRow db uid)
  rw [List.find?_append]
  have h0' : db.wallets.find? (fun w => w.user_id == uid) = none := h0
  rw [h0']
  simp [newWalletRow]

theorem filter_wallets_of_none {db : DB} {uid : Nat}
    (h0 : findWallet db uid = none) :
    (insertIfAbsent db uid).wallets.filter (fun w => w.user_id == uid)
      = [newWalletRow db uid] := by
  rw [insertIfAbsent_of_none h0]
  show (db.wallets ++ [newWalletRow db uid]).filter (fun w => w.user_id == uid) = _
  rw [List.filter_append]
  have hall : ∀ x ∈ db.wallets, ¬ ((fun w => w.user_id == uid) x = true) :=
    List.find?_eq_none.mp h0
  rw [List.filter_eq_nil_iff.mpr hall]
  simp [newWalletRow]

theorem videoJobCount_retimestamp (db : DB) (uid : Nat) (f : VideoJobRow → Nat) :
    videoJobCount
      { db with video_jobs := db.video_jobs.map (fun j => { j with created_at := f j }) }
      uid = videoJobCount db uid := by
  unfold videoJobCount
  show (List.filter (fun j => j.user_id == uid)
      (db.video_jobs.map (fun j => { j with created_at := f j }))).length = _
  rw [List.filter_map, List.length_map]
  congr 1

theorem depositRun_some_fail_state (db : DB) (uid : Nat) (a : JSNum) (note : String)
    (f : DepFail) :
    (depositRun db uid a note (some f)).1 = db ∨
    (depositRun db uid a note (some f)).1 = insertIfAbsent db uid := by
  cases a with
  | nan => left; simp [depositRun, JSNum.isFinite]
  | inf b => left; simp [depositRun, JSNum.isFinite]
  | fin q =>
    by_cases h0 : ((JSNum.fin q).jsLe (.fin 0)) = true
    · left; simp [depositRun, JSNum.isFinite, h0]
    · by_cases h1 : ((JSNum.fin q).jsGt (.fin 1000000)) = true
      · left
        simp [depositRun, JSNum.isFinite, Bool.eq_false_iff.mpr h0, h1]
      · right
        simp only [depositRun, JSNum.isFinite, Bool.not_true, Bool.false_or,
          Bool.eq_false_iff.mpr h0, Bool.eq_false_iff.mpr h1, if_false,
          ensureWallet]
        cases findWallet (insertIfAbsent db uid) uid <;> rfl

theorem depositRun_invalid (db : DB) (uid : Nat) (a : JSNum) (note : String)
    (fail : Option DepFail) (h : ¬ specValidAmount a) :
    ∃ msg, depositRun db uid a note fail = (db, .validationError msg) := by
  cases a with
  | nan => exact ⟨"amount must be > 0", by simp [depositRun, JSNum.isFinite]⟩
  | inf b => exact ⟨"amount must be > 0", by simp [depositRun, JSNum.isFinite]⟩
  | fin q =>
    have hq : q ≤ 0 ∨ 1000000 < q := by
      by_contra hc
      push_neg at hc
      exact h ⟨q, rfl, hc.1, hc.2⟩
    rcases hq with hq | hq
    · refine ⟨"amount must be > 0", ?_⟩
      have : ((JSNum.fin q).jsLe (.fin 0)) = true := by simp [JSNum.jsLe, hq]
      simp [depositRun, JSNum.isFinite, this]
    · refine ⟨"amount too large", ?_⟩
      have hle : ((JSNum.fin q).jsLe (.fin 0)) = false := by
        simp [JSNum.jsLe, not_le.mpr (lt_trans (by norm_num : (0:ℚ) < 1000000) hq)]
      have hgt : ((JSNum.fin q).jsGt (.fin 1000000)) = true := by
        simp [JSNum.jsGt, JSNum.jsLe, not_le.mpr hq]
      simp [depositRun, JSNum.isFinite, hle, hgt]

theorem depositRun_valid_no_validation (db : DB) (uid : Nat) (q : ℚ)
    (note : String) (fail : Option DepFail) (h0 : 0 < q) (h1 : q ≤ 1000000) :
    ∀ msg, (depositRun db uid (.fin q) note fail).2 ≠ .validationError msg := by
  have hv1 : ((JSNum.fin q).jsLe (.fin 0)) = false := by
    simp [JSNum.jsLe, not_le.mpr h0]
  have hv2 : ((JSNum.fin q).jsGt (.fin 1000000)) = false := by
    simp [JSNum.jsGt, JSNum.jsLe, h1]
  intro msg
  simp only [depositRun, JSNum.isFinite, hv1, hv2, Bool.not_true, Bool.false_or,
    if_false, ensureWallet]
  cases findWallet (insertIfAbsent db uid) uid with
  | none => simp
  | some w =>
    cases fail with
    | none => simp
    | some f => simp

/-! ## Claim theorems -/

/-- C1. The claim states the three subscribe writes (expire old rental,
insert new rental, update the user's plan code) form one atomic unit, so a
state where the old rental is expired but no new rental exists is never
observable.  The handler issues the three statements as separate queries with
no surrounding transaction, so when the INSERT fails after the UPDATE
succeeded exactly that state is observable: in `subDB` user 1 holds one
active rental; after `subscribe(1, "pro", 3)` fails at the INSERT statement,
the only rental row is the old one with status expired and the user has no
active rental — a partial write survives. -/
theorem subscribe_partial_write_observable :
    activeRentalsOf subDB 1 =
      [{ id := 10, user_id := 1, plan_id := 1, months := 1, total_price := 299,
         status := RStatus.active, starts_at := 3, ends_at := 4, created_at := 3 }] ∧
    (subscribeRun subDB 1 "pro" 3 (some SubStep.insertRental)).2
      = SubOutcome.storageError ∧
    (subscribeRun subDB 1 "pro" 3 (some SubStep.insertRental)).1.rentals =
      [{ id := 10, user_id := 1, plan_id := 1, months := 1, total_price := 299,
         status := RStatus.expired, starts_at := 3, ends_at := 4, created_at := 3 }] ∧
    activeRentalsOf (subscribeRun subDB 1 "pro" 3 (some SubStep.insertRental)).1 1
      = [] := by
  refine ⟨?_, ?_, ?_, ?_⟩ <;> with_unfolding_all rfl

/-- C3. The deposit's two writes are one atomic unit: if either statement
of the transaction fails, the rollback leaves every transaction row and every
pre-existing wallet row (hence the wallet balance) exactly as before; and on
a successful valid deposit both writes land together — the transaction row is
appended and the balance is incremented in the same step. -/
theorem deposit_atomic (db : DB) (uid : Nat) (a : JSNum) (note : String) :
    (∀ f : DepFail,
      (depositRun db uid a note (some f)).1.txs = db.txs ∧
      (∀ x ∈ db.wallets, x ∈ (depositRun db uid a note (some f)).1.wallets) ∧
      (∀ b : ℚ, balanceOf db uid = some b →
        balanceOf (depositRun db uid a note (some f)).1 uid = some b)) ∧
    (∀ q : ℚ, a = .fin q → 0 < q → q ≤ 1000000 →
      ∀ w : WalletRow, findWallet db uid = some w →
        (depositRun db uid a note none).1.txs
          = db.txs ++ [depositTx db uid w.id q note] ∧
        balanceOf (depositRun db uid a note none).1 uid = some (w.balance + q)) := by
  constructor
  · intro f
    rcases depositRun_some_fail_state db uid a note f with hst | hst
    · rw [hst]
      exact ⟨rfl, fun x hx => hx, fun b hb => hb⟩
    · rw [hst]
      refine ⟨insertIfAbsent_txs db uid, insertIfAbsent_wallets_mem db uid, ?_⟩
      intro b hb
      obtain ⟨w, hwf, hwb⟩ := Option.map_eq_some'.mp hb
      rw [insertIfAbsent_of_findWallet_some hwf]
      exact hb
  · rintro q rfl h0 h1 w hw
    have hrun := depositRun_ok hw h0 h1 note
    constructor
    · rw [hrun]
    · rw [hrun]
      show ((updateBalance db.wallets q w.id db.now).find?
        (fun x => x.user_id == uid)).map (fun x => x.balance) = some (w.balance + q)
      rw [find?_updateBalance]
      rw [show db.wallets.find? (fun x => x.user_id == uid) = some w from hw]
      simp

/-- C3 witness. A concrete failing deposit on `walletDB` leaves the
transaction table and the wallet row unchanged, and the concrete successful
deposit of 5/2 appends its row and credits the balance. -/
theorem deposit_atomic_witness :
    ((depositRun walletDB 1 (.fin (5/2)) "hello" (some DepFail.atInsert)).1.txs
      = walletDB.txs ∧
    (∀ b : ℚ, balanceOf walletDB 1 = some b →
      balanceOf (depositRun walletDB 1 (.fin (5/2)) "hello"
        (some DepFail.atInsert)).1 1 = some b)) ∧
    (depositRun walletDB 1 (.fin (5/2)) "hello" none).1.txs
      = walletDB.txs ++ [depositTx walletDB 1 7 (5/2) "hello"] := by
  have h := deposit_atomic walletDB 1 (.fin (5/2)) "hello"
  refine ⟨⟨(h.1 DepFail.atInsert).1, (h.1 DepFail.atInsert).2.2⟩, ?_⟩
  refine (h.2 (5/2) rfl (of_decide_eq_true (by with_unfolding_all rfl))
    (of_decide_eq_true (by with_unfolding_all rfl))
    { id := 7, user_id := 1, balance := 35/2, currency := "THB",
      updated_at := 2, created_at := 2 }
    (by with_unfolding_all rfl)).1

/-- C4. A deposit whose amount is not a finite number, is ≤ 0, or is
greater than 1,000,000 is rejected with a validation error before any write:
the returned state is exactly the input state.  Every finite amount with
0 < amount ≤ 1,000,000 passes the validation (the outcome is never a
validation error). -/
theorem deposit_validation (db : DB) (uid : Nat) (a : JSNum) (note : String)
    (fail : Option DepFail) :
    (¬ specValidAmount a →
      ∃ msg, depositRun db uid a note fail = (db, .validationError msg)) ∧
    (specValidAmount a →
      ∀ msg, (depositRun db uid a note fail).2 ≠ .validationError msg) := by
  constructor
  · intro h
    exact depositRun_invalid db uid a note fail h
  · rintro ⟨q, rfl, h0, h1⟩
    exact depositRun_valid_no_validation db uid q note fail h0 h1

/-- C4 witness. The amount -3 is rejected on `walletDB` with the state
unchanged, and the amount 10 passes validation. -/
theorem deposit_validation_witness :
    (∃ msg, depositRun walletDB 1 (.fin (-3)) "x" none
      = (walletDB, .validationError msg)) ∧
    (∀ msg, (depositRun walletDB 1 (.fin 10) "x" none).2
      ≠ DepositOutcome.validationError msg) := by
  constructor
  · refine (deposit_validation walletDB 1 (.fin (-3)) "x" none).1 ?_
    rintro ⟨q, hq, h0, _⟩
    cases hq
    exact absurd h0 (of_decide_eq_false (by with_unfolding_all rfl))
  · exact (deposit_validation walletDB 1 (.fin 10) "x" none).2
      ⟨10, rfl, of_decide_eq_true (by with_unfolding_all rfl),
        of_decide_eq_true (by with_unfolding_all rfl)⟩

/-- C2. For a user holding an active rental, a successful
`subscribe(u, "pro", 3)` leaves exactly one active rental (the newly inserted
one, with status active and months 3), every prior rental of the user now has
status expired, the frozen total price is 2499 × 3 = 7497, the user's
denormalized plan is "pro", and the at-most-one-active-rental invariant holds
afterwards for every user (other users' active rentals are untouched). -/
theorem subscribe_pro_three_months (db : DB) (uid : Nat) (p : PlanRow)
    (hu : (db.users.find? (fun u => u.id == uid)).isSome = true)
    (hp : findActivePlan db "pro" = some p)
    (hprice : p.monthly_price = 2499)
    (hact : ∃ r ∈ db.rentals, r.user_id = uid ∧ r.status = RStatus.active) :
    ∃ newR : RentalRow,
      (subscribeRun db uid "pro" 3 none).2 = .ok newR p ∧
      newR.status = RStatus.active ∧
      newR.months = 3 ∧
      newR.total_price = 7497 ∧
      activeRentalsOf (subscribeRun db uid "pro" 3 none).1 uid = [newR] ∧
      (∀ r, r ∈ db.rentals → r.user_id = uid → r.status = RStatus.active →
        { r with status := RStatus.expired }
          ∈ (subscribeRun db uid "pro" 3 none).1.rentals) ∧
      userPlan (subscribeRun db uid "pro" 3 none).1 uid = some "pro" ∧
      (activeRentalsOf (subscribeRun db uid "pro" 3 none).1 uid).length ≤ 1 ∧
      (∀ v, v ≠ uid → activeRentalsOf (subscribeRun db uid "pro" 3 none).1 v
        = activeRentalsOf db v) := by
  clear hact
  have hcode : (safeText "pro" 50 == "") = false := by
    rw [safeText_pro]
    with_unfolding_all rfl
  have hp' : findActivePlan db (safeText "pro" 50) = some p := by
    rw [safeText_pro]; exact hp
  have hpcode : p.code = "pro" := by
    have := List.find?_some hp
    have hb : (p.code == "pro" && p.active) = true := this
    simpa using (Bool.and_eq_true ..|>.mp hb).1
  have hrun := @subscribeRun_ok db uid p "pro" 3
    (by norm_num) (by norm_num) hcode hp'
  set newR := newRentalRow (expireActive db uid) uid p.id ((3:Int).toNat)
    (p.monthly_price * (((3:Int).toNat : ℕ) : ℚ)) with hnewR
  refine ⟨newR, ?_, rfl, rfl, ?_, ?_, ?_, ?_, ?_, ?_⟩
  · rw [hrun]
  · show p.monthly_price * (((3:Int).toNat : ℕ) : ℚ) = 7497
    rw [hprice]
    show (2499 : ℚ) * ((3 : ℕ) : ℚ) = 7497
    norm_num
  · rw [hrun]
    show ((expireActive db uid).rentals ++ [newR]).filter
      (fun r => r.user_id == uid && r.status == RStatus.active) = [newR]
    rw [List.filter_append]
    rw [show (expireActive db uid).rentals.filter
      (fun r => r.user_id == uid && r.status == RStatus.active) = []
      from expireActive_no_active db uid]
    simp [newR, newRentalRow]
  · intro r hr hru hrs
    rw [hrun]
    show { r with status := RStatus.expired }
      ∈ (expireActive db uid).rentals ++ [newR]
    exact List.mem_append_left _ (expireActive_mem_expired db uid r hr hru hrs)
  · rw [hrun]
    rw [← hpcode]
    exact userPlan_setUserPlan _ uid p.code hu
  · rw [hrun]
    show (((expireActive db uid).rentals ++ [newR]).filter
      (fun r => r.user_id == uid && r.status == RStatus.active)).length ≤ 1
    rw [List.filter_append]
    rw [show (expireActive db uid).rentals.filter
      (fun r => r.user_id == uid && r.status == RStatus.active) = []
      from expireActive_no_active db uid]
    rw [List.nil_append]
    exact List.length_filter_le _ _
  · intro v hv
    rw [hrun]
    show (((expireActive db uid).rentals ++ [newR]).filter
      (fun r => r.user_id == v && r.status == RStatus.active))
      = activeRentalsOf db v
    rw [List.filter_append]
    have h1 : (expireActive db uid).rentals.filter
        (fun r => r.user_id == v && r.status == RStatus.active)
        = activeRentalsOf db v := expireActive_other db uid v hv
    have h2 : [newR].filter
        (fun r => r.user_id == v && r.status == RStatus.active) = [] := by
      have : (newR.user_id == v) = false := by
        simp [newR, newRentalRow, Ne.symm hv]
      simp [List.filter, this]
    rw [h1, h2, List.append_nil]

/-- C2 witness. The concrete subscription of user 1 (who holds an active
starter rental in `subDB`) to "pro" for 3 months. -/
theorem subscribe_pro_three_months_witness :
    ∃ newR : RentalRow,
      (subscribeRun subDB 1 "pro" 3 none).2 = .ok newR
        { id := 3, code := "pro", name := "Pro", monthly_price := 2499,
          max_video_jobs := 1000, active := true } ∧
      newR.total_price = 7497 ∧
      activeRentalsOf (subscribeRun subDB 1 "pro" 3 none).1 1 = [newR] ∧
      userPlan (subscribeRun subDB 1 "pro" 3 none).1 1 = some "pro" := by
  obtain ⟨newR, h1, _, _, h4, h5, _, h7, _, _⟩ :=
    subscribe_pro_three_months subDB 1
      { id := 3, code := "pro", name := "Pro", monthly_price := 2499,
        max_video_jobs := 1000, active := true }
      (by with_unfolding_all rfl) (by with_unfolding_all rfl) rfl
      ⟨{ id := 10, user_id := 1, plan_id := 1, months := 1, total_price := 299,
         status := RStatus.active, starts_at := 3, ends_at := 4, created_at := 3 },
       List.mem_cons_self .., rfl, rfl⟩
  exact ⟨newR, h1, h4, h5, h7⟩

/-- C5. Starting from any wallet, a sequence of n valid deposits leaves
the balance at the initial balance plus the sum of the amounts and adds
exactly n transaction rows for that wallet; and any reordering of the same
deposits (the serialization of n concurrent deposits, each one an atomic
relative update) reaches the same final balance and row count. -/
theorem deposit_sum_and_count (db : DB) (uid : Nat) (w : WalletRow) (l : List ℚ)
    (hw : findWallet db uid = some w)
    (hv : ∀ q ∈ l, 0 < q ∧ q ≤ 1000000) :
    balanceOf (depositSeq db uid l) uid = some (w.balance + l.sum) ∧
    (txsFor (depositSeq db uid l) w.id).length = (txsFor db w.id).length + l.length ∧
    ∀ l' : List ℚ, l.Perm l' →
      balanceOf (depositSeq db uid l') uid = balanceOf (depositSeq db uid l) uid ∧
      (txsFor (depositSeq db uid l') w.id).length
        = (txsFor (depositSeq db uid l) w.id).length := by
  obtain ⟨w', ts, hfw, hid, hbal, htxs, hlen, -, -, -⟩ :=
    depositSeq_spec uid l db w hw hv
  have hbalance : balanceOf (depositSeq db uid l) uid = some (w.balance + l.sum) := by
    unfold balanceOf
    rw [hfw]
    show some w'.balance = some (w.balance + l.sum)
    rw [hbal]
  have hcount : (txsFor (depositSeq db uid l) w.id).length
      = (txsFor db w.id).length + l.length := by
    rw [htxs, List.length_append, hlen]
  refine ⟨hbalance, hcount, ?_⟩
  intro l' hperm
  obtain ⟨w2, ts2, hfw2, hid2, hbal2, htxs2, hlen2, -, -, -⟩ :=
    depositSeq_spec uid l' db w hw (fun q hq => hv q (hperm.mem_iff.mpr hq))
  constructor
  · unfold balanceOf
    rw [hfw2, hfw]
    show some w2.balance = some w'.balance
    rw [hbal2, hbal]
    have hsum : l'.sum = l.sum := (hperm.sum_eq).symm
    rw [hsum]
  · rw [htxs2, List.length_append, hlen2, hcount, hperm.length_eq]

/-- C5 witness. Three deposits of 1, 2, 3 on `walletDB` (initial balance
35/2, wallet id 7) and their reordering 3, 2, 1. -/
theorem deposit_sum_and_count_witness :
    balanceOf (depositSeq walletDB 1 [1, 2, 3]) 1
      = some (35/2 + ([1, 2, 3] : List ℚ).sum) ∧
    (txsFor (depositSeq walletDB 1 [1, 2, 3]) 7).length
      = (txsFor walletDB 7).length + 3 ∧
    balanceOf (depositSeq walletDB 1 [3, 2, 1]) 1
      = balanceOf (depositSeq walletDB 1 [1, 2, 3]) 1 := by
  have h := deposit_sum_and_count walletDB 1
    { id := 7, user_id := 1, balance := 35/2, currency := "THB",
      updated_at := 2, created_at := 2 }
    [1, 2, 3]
    (by with_unfolding_all rfl)
    (of_decide_eq_true (by with_unfolding_all rfl))
  exact ⟨h.1, h.2.1, (h.2.2 [3, 2, 1]
    (of_decide_eq_true (by with_unfolding_all rfl))).1⟩

/-- C6. `ensureWallet` is idempotent: a second call returns the same
wallet and the same state as the first.  When the user has no wallet it
creates exactly one row with balance 0 and the default currency "THB" and
returns it; when a wallet exists it returns that row with no state change. -/
theorem ensureWallet_idempotent (db : DB) (uid : Nat) :
    ensureWallet (ensureWallet db uid).1 uid = ensureWallet db uid ∧
    (findWallet db uid = none →
      (ensureWallet db uid).1.wallets = db.wallets ++ [newWalletRow db uid] ∧
      (ensureWallet db uid).2 = some (newWalletRow db uid)) ∧
    (∀ w : WalletRow, findWallet db uid = some w →
      (ensureWallet db uid).1 = db ∧ (ensureWallet db uid).2 = some w) := by
  refine ⟨?_, ?_, ?_⟩
  · obtain ⟨w0, hw0⟩ := Option.isSome_iff_exists.mp
      (findWallet_isSome_insertIfAbsent db uid)
    have h1 : ensureWallet db uid = (insertIfAbsent db uid, some w0) := by
      show (insertIfAbsent db uid, findWallet (insertIfAbsent db uid) uid)
        = (insertIfAbsent db uid, some w0)
      rw [hw0]
    rw [h1]
    exact ensureWallet_of_exists hw0
  · intro h0
    constructor
    · show (insertIfAbsent db uid).wallets = _
      rw [insertIfAbsent_of_none h0]
    · show findWallet (insertIfAbsent db uid) uid = _
      exact findWallet_insert_of_none h0
  · intro w hw
    rw [ensureWallet_of_exists hw]
    exact ⟨rfl, rfl⟩

/-- C6 witness. On `emptyWalletDB` (user 1 has no wallet) the first call
creates the single row and the second call is a no-op returning it; on
`walletDB` (user 1 has wallet id 7) the call returns that row unchanged. -/
theorem ensureWallet_idempotent_witness :
    ensureWallet (ensureWallet emptyWalletDB 1).1 1 = ensureWallet emptyWalletDB 1 ∧
    (ensureWallet emptyWalletDB 1).1.wallets
      = emptyWalletDB.wallets ++ [newWalletRow emptyWalletDB 1] ∧
    (ensureWallet walletDB 1).1 = walletDB := by
  refine ⟨(ensureWallet_idempotent emptyWalletDB 1).1, ?_, ?_⟩
  · exact ((ensureWallet_idempotent emptyWalletDB 1).2.1
      (by with_unfolding_all rfl)).1
  · exact ((ensureWallet_idempotent walletDB 1).2.2
      { id := 7, user_id := 1, balance := 35/2, currency := "THB",
        updated_at := 2, created_at := 2 }
      (by with_unfolding_all rfl)).1

/-- C7. After N valid deposits into a wallet with no prior transactions,
the transaction listing returns exactly N entries (bounded by the most recent
100: `min N 100`) in strictly descending `created_at` order (newest first). -/
theorem listTransactions_round_trip (db : DB) (uid : Nat) (w : WalletRow)
    (l : List ℚ)
    (hw : findWallet db uid = some w)
    (h0 : txsFor db w.id = [])
    (hv : ∀ q ∈ l, 0 < q ∧ q ≤ 1000000) :
    (listTransactions (depositSeq db uid l) uid).2.length = min l.length 100 ∧
    (listTransactions (depositSeq db uid l) uid).2.Pairwise
      (fun a b => b.created_at < a.created_at) := by
  obtain ⟨w', ts, hfw, hid, -, htxs, hlen, hpw, -, -⟩ :=
    depositSeq_spec uid l db w hw hv
  rw [h0, List.nil_append] at htxs
  have hlist : (listTransactions (depositSeq db uid l) uid).2
      = (sortDesc (txsFor (depositSeq db uid l) w'.id)).take 100 := by
    unfold listTransactions
    rw [ensureWallet_of_exists hfw]
  have htsw : txsFor (depositSeq db uid l) w'.id = ts := by
    rw [hid, htxs]
  rw [hlist, htsw]
  have hperm : List.Perm (sortDesc ts) ts := List.perm_insertionSort byNewest ts
  constructor
  · rw [List.length_take, hperm.length_eq, hlen, Nat.min_comm]
  · have hsorted : (sortDesc ts).Pairwise byNewest :=
      List.sorted_insertionSort byNewest ts
    have hkeys : (ts.map (fun t => t.created_at)).Pairwise (· < ·) :=
      List.pairwise_map.mpr hpw
    have hnodup : (ts.map (fun t => t.created_at)).Nodup :=
      hkeys.imp (fun h => ne_of_lt h)
    have hnodup2 : ((sortDesc ts).map (fun t => t.created_at)).Nodup :=
      ((hperm.map (fun t => t.created_at)).nodup_iff).mpr hnodup
    have hne : (sortDesc ts).Pairwise (fun a b => a.created_at ≠ b.created_at) :=
      List.pairwise_map.mp hnodup2
    have hdesc : (sortDesc ts).Pairwise (fun a b => b.created_at < a.created_at) :=
      (hsorted.and hne).imp (fun h => lt_of_le_of_ne h.1 (Ne.symm h.2))
    exact hdesc.sublist (List.take_sublist ..)

/-- C7 witness. Three deposits into the transaction-free wallet of
`walletDB` yield a listing of min 3 100 = 3 rows, strictly newest first. -/
theorem listTransactions_round_trip_witness :
    (listTransactions (depositSeq walletDB 1 [1, 2, 3]) 1).2.length = min 3 100 ∧
    (listTransactions (depositSeq walletDB 1 [1, 2, 3]) 1).2.Pairwise
      (fun a b => b.created_at < a.created_at) :=
  listTransactions_round_trip walletDB 1
    { id := 7, user_id := 1, balance := 35/2, currency := "THB",
      updated_at := 2, created_at := 2 }
    [1, 2, 3]
    (by with_unfolding_all rfl)
    rfl
    (of_decide_eq_true (by with_unfolding_all rfl))

/-- C8. The quota gate denies with "plan limit reached" exactly when the
user's active rental joins to a plan whose `max_video_jobs` is at most the
user's video-job count; with no active rental the gate is skipped (always
allowed).  Concretely on the seeded catalog: a user on "starter"
(max_video_jobs = 30) with 30 jobs is denied, with 29 is allowed, and the
same user with 30 jobs but no rental is allowed. -/
theorem quota_plan_limit (db : DB) (uid : Nat) :
    (getActiveRentalJoined db uid = none → quotaDenied db uid = false) ∧
    (∀ r : RentalRow, ∀ p : PlanRow,
      getActiveRentalJoined db uid = some (r, p) →
      (quotaDenied db uid = true ↔ p.max_video_jobs ≤ videoJobCount db uid)) ∧
    quotaDenied (quotaDB 30) 1 = true ∧
    quotaDenied (quotaDB 29) 1 = false ∧
    quotaDenied (jobsDB 30) 1 = false := by
  refine ⟨?_, ?_, ?_, ?_, ?_⟩
  · intro h
    simp [quotaDenied, h]
  · intro r p h
    simp [quotaDenied, h]
  · with_unfolding_all rfl
  · with_unfolding_all rfl
  · with_unfolding_all rfl

/-- C8 witness. The quota gate on the concrete states: no rental, and the
starter rental joined with its plan row. -/
theorem quota_plan_limit_witness :
    quotaDenied (jobsDB 30) 1 = false ∧
    (quotaDenied (quotaDB 30) 1 = true ↔ 30 ≤ videoJobCount (quotaDB 30) 1) := by
  constructor
  · exact (quota_plan_limit (jobsDB 30) 1).1 (by with_unfolding_all rfl)
  · exact (quota_plan_limit (quotaDB 30) 1).2.1
      { id := 50, user_id := 1, plan_id := 1, months := 1, total_price := 299,
        status := RStatus.active, starts_at := 40, ends_at := 41, created_at := 40 }
      { id := 1, code := "starter", name := "Starter", monthly_price := 299,
        max_video_jobs := 30, active := true }
      (by with_unfolding_all rfl)

/-- C9. Any valid interleaving of N concurrent `ensureWallet` calls for a
brand-new user leaves exactly one wallet row for that user, and every caller's
select observes that same row (the losing inserts are absorbed by the
`ON CONFLICT DO NOTHING`, never surfacing as an error or a missing row). -/
theorem ensureWallet_race (db : DB) (uid : Nat) (es : List WEv)
    (h0 : findWallet db uid = none)
    (hwf : selsCovered [] es = true)
    (hne : ∃ i, WEv.ins i ∈ es) :
    ((runWalletRace uid db es).1.wallets.filter
      (fun x => x.user_id == uid)).length = 1 ∧
    ∃ w : WalletRow,
      findWallet (runWalletRace uid db es).1 uid = some w ∧
      ∀ x ∈ (runWalletRace uid db es).2, x.2 = some w := by
  cases es with
  | nil =>
    obtain ⟨i, hi⟩ := hne
    exact absurd hi (List.not_mem_nil _)
  | cons e es =>
    cases e with
    | sel i => exact Bool.noConfusion (show false = true from hwf)
    | ins i =>
      have hfw1 : findWallet (insertIfAbsent db uid) uid
          = some (newWalletRow db uid) := findWallet_insert_of_none h0
      obtain ⟨hst, hlog⟩ := runWalletRace_of_exists uid es
        (insertIfAbsent db uid) (newWalletRow db uid) hfw1
      have hrun : runWalletRace uid db (WEv.ins i :: es)
          = runWalletRace uid (insertIfAbsent db uid) es := rfl
      constructor
      · rw [hrun, hst, filter_wallets_of_none h0]
        rfl
      · refine ⟨newWalletRow db uid, ?_, ?_⟩
        · rw [hrun, hst]
          exact hfw1
        · rw [hrun]
          exact hlog

/-- C9 witness. Two concurrent callers on `emptyWalletDB`, fully
interleaved (both inserts race before either select): one row, both observe
it. -/
theorem ensureWallet_race_witness :
    ((runWalletRace 1 emptyWalletDB
        [.ins 0, .ins 1, .sel 1, .sel 0]).1.wallets.filter
      (fun x => x.user_id == 1)).length = 1 ∧
    ∃ w : WalletRow,
      findWallet (runWalletRace 1 emptyWalletDB
        [.ins 0, .ins 1, .sel 1, .sel 0]).1 1 = some w ∧
      ∀ x ∈ (runWalletRace 1 emptyWalletDB
        [.ins 0, .ins 1, .sel 1, .sel 0]).2, x.2 = some w :=
  ensureWallet_race emptyWalletDB 1 [.ins 0, .ins 1, .sel 1, .sel 0]
    rfl rfl ⟨0, List.mem_cons_self ..⟩

/-- C10. The count the quota gate compares against `max_video_jobs` is
the lifetime total of the user's `video_jobs` rows: re-timestamping every job
arbitrarily never changes the gate's verdict, and concretely a user whose 30
jobs were all created (times 0..29) before the starter rental even started
(time 40) is denied immediately after subscribing. -/
theorem quota_counts_lifetime (db : DB) (uid : Nat) (f : VideoJobRow → Nat) :
    quotaDenied
      { db with video_jobs :=
          db.video_jobs.map (fun j => { j with created_at := f j }) } uid
      = quotaDenied db uid ∧
    quotaDenied (quotaDB 30) 1 = true ∧
    ((quotaDB 30).video_jobs.all (fun j => decide (j.created_at < 40))) = true ∧
    (getActiveRentalJoined (quotaDB 30) 1).map (fun rp => rp.1.starts_at)
      = some 40 := by
  refine ⟨?_, by with_unfolding_all rfl, by with_unfolding_all rfl,
    by with_unfolding_all rfl⟩
  have hj : getActiveRentalJoined
      { db with video_jobs :=
          db.video_jobs.map (fun j => { j with created_at := f j }) } uid
      = getActiveRentalJoined db uid := rfl
  cases h : getActiveRentalJoined db uid with
  | none => simp [quotaDenied, hj, h]
  | some rp => simp [quotaDenied, hj, h, videoJobCount_retimestamp]

/-- C10 witness. Shifting every job timestamp of `quotaDB 30` by +1000
does not change the verdict. -/
theorem quota_counts_lifetime_witness :
    quotaDenied
      { quotaDB 30 with
          video_jobs := (quotaDB 30).video_jobs.map
            (fun j => { j with created_at := j.created_at + 1000 }) } 1
      = quotaDenied (quotaDB 30) 1 :=
  (quota_counts_lifetime (quotaDB 30) 1 (fun j => j.created_at + 1000)).1
